import Mathlib

/-!
Verification of the SmartTender AI Local MVP core (Backend/LocalMVP):
the catalog matcher and parsing heuristics (`parsing.py`), the hybrid
lexical/semantic scorer and ranking engine (`app.py`), the tender dedup
logic (`database.py`), and the CV enrichment merge (`app.py`).

Modelling conventions:
* Python floats are modelled as exact rationals (`ℚ`); decimal literals such
  as `0.55` denote the exact decimal value.  `round(x, 2)` is modelled as
  rounding `100 * x` to the nearest integer; the facts proved below never
  depend on the direction of an exact half-hundredth tie, which is the only
  place Python's float rounding could differ.
* Python `int` fields are modelled as `ℤ` (or `ℕ` where the source value is
  a count that is non-negative by construction).
* Python strings are Lean `String`s; `str.lower()`, `str.strip()` and the
  regex classes `\w`, `\s`, `\d` are modelled over the ASCII range
  (`lowerStr`, `trimStr`, `Char.isAlphanum`, `Char.isWhitespace`,
  `Char.isDigit`), which covers every vocabulary entry and test input used
  here.
* Python `sorted(set(xs))` is the ascending duplicate-free enumeration of
  the elements of `xs`, modelled as `pySortedSet` with the code-point
  lexicographic string order `strLe` (Python string comparison) or `Nat.ble`.
* `list.sort(key=..., reverse=True)` is a stable descending sort, modelled
  by `List.insertionSort` with the relation `fun a b => key b ≤ key a`
  (which places earlier elements first on ties, exactly like a stable
  sort).
-/

/-- Python `round(x, 2)`: round to the nearest hundredth. -/
def round2 (x : ℚ) : ℚ := ((round (x * 100) : ℤ) : ℚ) / 100

/-- Lexicographic comparison of character lists by code point, the order
Python uses to compare strings. -/
def charListLe : List Char → List Char → Bool
  | [], _ => true
  | _ :: _, [] => false
  | a :: as, b :: bs =>
    if a.toNat < b.toNat then true
    else if b.toNat < a.toNat then false
    else charListLe as bs

/-- Python string comparison `a <= b` (lexicographic by code point). -/
def strLe (a b : String) : Bool := charListLe a.data b.data

/-- Python `sorted(set(xs))`: duplicate-free list of the elements of `xs`,
ascending with respect to the boolean comparison `le`. -/
def pySortedSet {α : Type} [DecidableEq α] (le : α → α → Bool) (l : List α) : List α :=
  (l.dedup).insertionSort (fun a b => le a b = true)

/-- Python `str.lower()` over the ASCII range, as a structurally recursive
function on the character list (so that concrete instances evaluate). -/
def lowerStr (s : String) : String := ⟨s.data.map Char.toLower⟩

/-- Python `str.strip()`: remove leading and trailing whitespace. -/
def trimStr (s : String) : String :=
  ⟨((s.data.dropWhile Char.isWhitespace).reverse.dropWhile Char.isWhitespace).reverse⟩

/-- Python regex `\w` over the ASCII range: letters, digits and underscore. -/
def isWordChar (c : Char) : Bool := c.isAlphanum || c == '_'

/-- The `needle` occurs in `hay` starting exactly at index `i`. -/
def occursAt (needle hay : List Char) (i : ℕ) : Bool :=
  decide (i + needle.length ≤ hay.length) &&
    ((hay.drop i).take needle.length == needle)

/-- Occurrence at `i` with non-word characters (or the text ends) on both
sides: the regex `(?<!\w)needle(?!\w)` matches at `i`. -/
def boundedAt (needle hay : List Char) (i : ℕ) : Bool :=
  occursAt needle hay i &&
    (decide (i = 0) || !isWordChar (hay.getD (i - 1) ' ')) &&
    (decide (i + needle.length = hay.length) ||
      !isWordChar (hay.getD (i + needle.length) ' '))

/-- `re.search` of the pattern `(?<!\w)needle(?!\w)`: some word-bounded
occurrence exists. -/
def boundedSearch (needle hay : List Char) : Bool :=
  (List.range (hay.length + 1)).any (fun i => boundedAt needle hay i)

/-- Python substring containment `needle in hay`. -/
def substrSearch (needle hay : List Char) : Bool :=
  (List.range (hay.length + 1)).any (fun i => occursAt needle hay i)

/-- The `needle` occurs in `hay` bounded by non-word characters on both
sides (the property the spec calls "word-boundary-safe"). -/
def BoundedOccurs (needle hay : List Char) : Prop :=
  ∃ i, boundedAt needle hay i = true

/-- The `needle` occurs somewhere in `hay` (plain substring containment). -/
def SubstrOccurs (needle hay : List Char) : Prop :=
  ∃ i, occursAt needle hay i = true

/-- `SKILL_CATALOG` from `parsing.py`: canonical skill → alias list. -/
def SKILL_CATALOG : List (String × List String) :=
  [("python", ["python"]),
   ("java", ["java"]),
   ("javascript", ["javascript", "js"]),
   ("typescript", ["typescript", "ts"]),
   ("react", ["react"]),
   ("angular", ["angular"]),
   ("node.js", ["node.js", "nodejs", "node js"]),
   ("fastapi", ["fastapi"]),
   ("flask", ["flask"]),
   ("django", ["django"]),
   ("spring boot", ["spring boot"]),
   ("sql", ["sql", "postgresql", "mysql", "sqlite"]),
   ("mongodb", ["mongodb"]),
   ("docker", ["docker"]),
   ("kubernetes", ["kubernetes", "k8s"]),
   ("git", ["git", "github", "gitlab"]),
   ("linux", ["linux"]),
   ("aws", ["aws"]),
   ("azure", ["azure"]),
   ("gcp", ["gcp", "google cloud"]),
   ("tensorflow", ["tensorflow"]),
   ("pytorch", ["pytorch"]),
   ("machine learning", ["machine learning", "ml"]),
   ("deep learning", ["deep learning"]),
   ("nlp", ["nlp", "natural language processing"]),
   ("data analysis", ["data analysis", "analytics"]),
   ("power bi", ["power bi", "powerbi"]),
   ("excel", ["excel"]),
   ("scrum", ["scrum"]),
   ("agile", ["agile"]),
   ("devops", ["devops"]),
   ("ci/cd", ["ci/cd", "ci cd", "jenkins", "github actions"])]

/-- `LANGUAGE_CATALOG` from `parsing.py`. -/
def LANGUAGE_CATALOG : List (String × List String) :=
  [("english", ["english", "anglais"]),
   ("french", ["french", "francais", "français"]),
   ("arabic", ["arabic", "arabe"]),
   ("german", ["german", "allemand"]),
   ("spanish", ["spanish", "espagnol"])]

/-- `EDUCATION_KEYWORDS` from `parsing.py`, in dict insertion order
(phd, master, bachelor), which is the iteration order of the lookup loop. -/
def EDUCATION_KEYWORDS : List (String × List String) :=
  [("phd", ["phd", "doctorate"]),
   ("master", ["master", "msc", "engineer", "ingénieur", "ingenieur"]),
   ("bachelor", ["bachelor", "licence", "bsc"])]

/-- Python `str.title()` over the ASCII range: a letter is upper-cased when
the previous character is not a letter, lower-cased otherwise. -/
def titleCaseAux : Bool → List Char → List Char
  | _, [] => []
  | prevAlpha, c :: rest =>
    (if prevAlpha then c.toLower else c.toUpper) :: titleCaseAux c.isAlpha rest

/-- Python `str.title()` on strings. -/
def titleCase (s : String) : String := ⟨titleCaseAux false s.data⟩

/-- `detect_skills` from `parsing.py`: a skill is found when one of its
aliases matches the regex `(?<!\w)alias(?!\w)` against the lower-cased
text; the result is `sorted(set(found))`. -/
def detect_skills (text : String) : List String :=
  pySortedSet strLe
    ((SKILL_CATALOG.filter
        (fun p => p.2.any
          (fun a => boundedSearch (lowerStr a).data (lowerStr text).data))).map
      (fun p => p.1))

/-- A detected spoken language entry: `{"name": ..., "proficiency": None}`. -/
structure LangEntry where
  name : String
  proficiency : Option String
deriving DecidableEq, Repr

/-- `detect_languages` from `parsing.py`: plain substring containment of any
alias in the lower-cased text. -/
def detect_languages (text : String) : List LangEntry :=
  LANGUAGE_CATALOG.filterMap
    (fun p =>
      if p.2.any (fun a => substrSearch a.data (lowerStr text).data) then
        some { name := titleCase p.1, proficiency := none }
      else none)

/-- `detect_education_level` from `parsing.py`: the first level (in the
order phd, master, bachelor) with an alias contained as a plain substring
of the lower-cased text; the empty string when none matches. -/
def detect_education_level (text : String) : String :=
  match EDUCATION_KEYWORDS.find?
      (fun p => p.2.any (fun a => substrSearch a.data (lowerStr text).data)) with
  | some p => p.1
  | none => ""

/-- Numeric value of a decimal digit character. -/
def digitVal (c : Char) : ℕ := c.toNat - ('0').toNat

/-- The regex `\b(19\d{2}|20\d{2})\b` matches at index `i`: four digits
starting with `19` or `20`, with word boundaries on both sides (the
neighbouring characters, when they exist, are non-word characters).
Returns the numeric value of the four-digit token. -/
def yearAt (text : List Char) (i : ℕ) : Option ℕ :=
  let c0 := text.getD i ' '
  let c1 := text.getD (i + 1) ' '
  let c2 := text.getD (i + 2) ' '
  let c3 := text.getD (i + 3) ' '
  if i + 4 ≤ text.length ∧
      ((c0 = '1' ∧ c1 = '9') ∨ (c0 = '2' ∧ c1 = '0')) ∧
      c2.isDigit ∧ c3.isDigit ∧
      (i = 0 ∨ isWordChar (text.getD (i - 1) ' ') = false) ∧
      (i + 4 = text.length ∨ isWordChar (text.getD (i + 4) ' ') = false) then
    some (1000 * digitVal c0 + 100 * digitVal c1 + 10 * digitVal c2 + digitVal c3)
  else none

/-- All values of `re.findall(r"\b(19\d{2}|20\d{2})\b", text)`.  Because a
match requires word boundaries on both sides, matches can never overlap,
so scanning every position finds exactly the `findall` matches. -/
def yearTokens (text : List Char) : List ℕ :=
  (List.range text.length).filterMap (fun i => yearAt text i)

/-- Length of the maximal run of decimal digits starting at index `i`. -/
def digitRunFrom : List Char → ℕ
  | [] => 0
  | c :: rest => if c.isDigit then digitRunFrom rest + 1 else 0

/-- Length of the maximal run of whitespace starting at the head. -/
def wsRunFrom : List Char → ℕ
  | [] => 0
  | c :: rest => if c.isWhitespace then wsRunFrom rest + 1 else 0

/-- Numeric value of a list of digit characters (most significant first). -/
def digitsVal (l : List Char) : ℕ :=
  l.foldl (fun acc c => 10 * acc + digitVal c) 0

/-- The regex `(\d+)\+?\s*(?:years|year|ans|an)\b` (case-insensitive)
matches starting at index `i`; returns the captured digit group's value.
The regex engine takes the maximal digit run (shorter runs leave a digit
next, which can never continue the pattern, so backtracking is vacuous),
the optional `+`, maximal whitespace, then the first alternative in the
written order that is followed by a word boundary. -/
def phraseAt (text : List Char) (i : ℕ) : Option ℕ :=
  let d := digitRunFrom (text.drop i)
  if d = 0 then none
  else
    let j := i + d
    let k := if text.getD j ' ' = '+' ∧ j < text.length then j + 1 else j
    let m := k + wsRunFrom (text.drop k)
    let lowered := text.map Char.toLower
    let ok := fun (alt : List Char) =>
      occursAt alt (lowered) m &&
        (decide (m + alt.length = text.length) ||
          !isWordChar (text.getD (m + alt.length) ' '))
    if ok (("years").data) || ok (("year").data) || ok (("ans").data) ||
        ok (("an").data) then
      some (digitsVal ((text.drop i).take d))
    else none

/-- `re.findall(r"(\d+)\+?\s*(?:years|year|ans|an)\b", text, re.I)` and
taking the first match, as `estimate_cv_experience_years` does:
the match with the leftmost starting position wins. -/
def firstPhrase (text : List Char) : Option ℕ :=
  (List.range text.length).findSome? (fun i => phraseAt text i)

/-- Python `min` over a non-empty list (`0` on the empty list, unused). -/
def listMin : List ℕ → ℕ
  | [] => 0
  | x :: xs => xs.foldl (fun a b => min a b) x

/-- `estimate_cv_experience_years` from `parsing.py`, with the current year
passed explicitly.  `years` is `sorted({...})` of the regex matches;
`valid_years` keeps those in `[1980, current_year]`. -/
def estimate_cv_experience_years (currentYear : ℕ) (text : List Char) : ℕ :=
  let years := pySortedSet Nat.ble (yearTokens text)
  let validYears := years.filter
    (fun y => decide (1980 ≤ y) && decide (y ≤ currentYear))
  if 2 ≤ validYears.length then
    max 0 (min (currentYear - listMin validYears) 25)
  else if validYears.length = 1 then
    max 1 (min (currentYear - validYears.headD 0) 25)
  else
    match firstPhrase text with
    | some n => n
    | none => 0

/-- The parsed requirement (tender) profile fields used by the scorer
(`parse_tender_text` output, possibly enriched). -/
structure TenderJson where
  title : String
  required_skills : List String
  preferred_skills : List String
  experience_level : ℤ
  languages : List String
  education_level : String
  summary : String
deriving DecidableEq, Repr

/-- `skills_and_interests` of a parsed CV. -/
structure CvSkills where
  technical_skills : List String
  soft_skills : List String
  languages : List LangEntry
deriving DecidableEq, Repr

/-- `metadata` of a parsed CV. -/
structure CvMeta where
  experience_years : ℤ
  education_level : String
deriving DecidableEq, Repr

/-- `personal_information` of a parsed CV. -/
structure CvPersonal where
  full_name : String
  email : String
  phone : String
deriving DecidableEq, Repr

/-- The parsed candidate profile fields used by the scorer and the
enrichment merge (`parse_cv_text` output). -/
structure CvJson where
  personal_information : CvPersonal
  professional_summary : String
  skills_and_interests : CvSkills
  metadata : CvMeta
deriving DecidableEq, Repr

/-- `education_rank` from `app.py`: `{"": 0, "bachelor": 1, "master": 2,
"phd": 3}.get(level, 0)`. -/
def education_rank (level : String) : ℕ :=
  if level = "bachelor" then 1
  else if level = "master" then 2
  else if level = "phd" then 3
  else 0

/-- `semantic_distance_to_score` from `app.py`. -/
def semantic_distance_to_score (distance : Option ℚ) : ℚ :=
  match distance with
  | none => 0
  | some d => round2 ((1 - min (max d 0) 1) * 100)

/-- The result dictionary of `compute_lexical_score`. -/
structure LexicalResult where
  lexical_score : ℚ
  matched_skills : List String
  missing_skills : List String
  candidate_languages : List String
  candidate_experience_years : ℤ
  tender_languages : List String
  required_experience : ℤ
deriving DecidableEq, Repr

/-- `compute_lexical_score` from `app.py`.  Set comprehensions are modelled
by `pySortedSet` (only cardinalities, memberships and the `sorted(...)`
views of these sets are ever used). -/
def compute_lexical_score (tender : TenderJson) (cv : CvJson) : LexicalResult :=
  let requiredSkills := pySortedSet strLe tender.required_skills
  let cvSkills := pySortedSet strLe cv.skills_and_interests.technical_skills
  let matchedSkills := requiredSkills.filter (fun s => decide (s ∈ cvSkills))
  let missingSkills := requiredSkills.filter (fun s => decide (s ∉ cvSkills))
  let skillScore : ℚ :=
    if requiredSkills.length ≠ 0 then
      ((matchedSkills.length : ℚ) / (requiredSkills.length : ℚ)) * 45
    else 25
  let tenderLanguages :=
    pySortedSet strLe ((tender.languages.filter (fun s => s ≠ "")).map lowerStr)
  let cvLanguages :=
    pySortedSet strLe
      (((cv.skills_and_interests.languages.map LangEntry.name).filter
          (fun s => s ≠ "")).map lowerStr)
  let langScore : ℚ :=
    if tenderLanguages.length ≠ 0 then
      (((tenderLanguages.filter (fun s => decide (s ∈ cvLanguages))).length : ℚ) /
          (tenderLanguages.length : ℚ)) * 15
    else 8
  let requiredExperience := tender.experience_level
  let candidateExperience := cv.metadata.experience_years
  let expScore : ℚ :=
    if requiredExperience ≠ 0 then
      min ((candidateExperience : ℚ) / (requiredExperience : ℚ)) 1 * 15
    else 8
  let requiredEducation := education_rank tender.education_level
  let candidateEducation := education_rank cv.metadata.education_level
  let eduScore : ℚ :=
    if requiredEducation ≠ 0 then
      (if candidateEducation ≥ requiredEducation then 10 else 4)
    else 6
  { lexical_score := round2 (skillScore + langScore + expScore + eduScore)
    matched_skills := matchedSkills
    missing_skills := missingSkills
    candidate_languages := cvLanguages
    candidate_experience_years := candidateExperience
    tender_languages := tenderLanguages
    required_experience := requiredExperience }

/-- `build_justification` from `app.py`. -/
def build_justification (matchedSkills missingSkills cvLanguages tenderLanguages :
    List String) (cvExperience tenderExperience : ℤ) (semanticScore : ℚ) :
    List String :=
  let notes := [("Semantic similarity score: ") ++ toString semanticScore ++ ("/100")]
  let notes := if matchedSkills ≠ [] then
      notes ++ [("Skills matched: ") ++ String.intercalate (", ") (matchedSkills.take 6)]
    else notes
  let notes := if missingSkills ≠ [] then
      notes ++ [("Missing skills: ") ++ String.intercalate (", ") (missingSkills.take 5)]
    else notes
  let notes := if tenderLanguages ≠ [] then
      let commonLanguages :=
        pySortedSet strLe (cvLanguages.filter (fun s => decide (s ∈ tenderLanguages)))
      if commonLanguages ≠ [] then
        notes ++ [("Languages aligned: ") ++ String.intercalate (", ") commonLanguages]
      else notes
    else notes
  if tenderExperience ≠ 0 then
    notes ++ [("Experience: candidate ") ++ toString cvExperience ++
      (" years vs requirement ") ++ toString tenderExperience]
  else notes

/-- One persisted CV row together with its parsed JSON document, as seen by
`search_candidates` (`cv_rows` entry plus the `json.loads` of its
`json_path`). -/
structure CandidateRow where
  id : ℕ
  full_name : String
  source_name : String
  json : CvJson
deriving DecidableEq, Repr

/-- One entry of the `ranking` list built by `search_candidates`. -/
structure MatchResult where
  cv_id : ℕ
  candidate_name : String
  source_file : String
  score : ℚ
  semantic_score : ℚ
  lexical_score : ℚ
  matched_skills : List String
  missing_skills : List String
  candidate_languages : List String
  candidate_experience_years : ℤ
  justification : List String
deriving DecidableEq, Repr

/-- The final-score combination used by `search_candidates`:
`round((lexical_score * 0.55) + (semantic_score * 0.45), 2)`. -/
def final_score_calc (lexical semantic : ℚ) : ℚ :=
  round2 (lexical * (55 / 100) + semantic * (45 / 100))

/-- The ranking entry `search_candidates` builds for one CV row.
`semanticHits` is the distance lookup built from the similarity-index
query (`semantic_hits.get(cv_id)`), and `llmNotes` is the optional
explanation returned by the enrichment oracle (a Python falsy value,
absent or the empty list, falls back to `build_justification`). -/
def mkMatchResult (tender : TenderJson) (semanticHits : ℕ → Option ℚ)
    (llmNotes : ℕ → Option (List String)) (row : CandidateRow) : MatchResult :=
  let lexical := compute_lexical_score tender row.json
  let semanticScore := semantic_distance_to_score (semanticHits row.id)
  let finalScore := final_score_calc lexical.lexical_score semanticScore
  let fallback := build_justification lexical.matched_skills lexical.missing_skills
    lexical.candidate_languages lexical.tender_languages
    lexical.candidate_experience_years lexical.required_experience semanticScore
  { cv_id := row.id
    candidate_name := row.full_name
    source_file := row.source_name
    score := finalScore
    semantic_score := semanticScore
    lexical_score := lexical.lexical_score
    matched_skills := lexical.matched_skills
    missing_skills := lexical.missing_skills
    candidate_languages := lexical.candidate_languages
    candidate_experience_years := lexical.candidate_experience_years
    justification :=
      match llmNotes row.id with
      | some notes => if notes ≠ [] then notes else fallback
      | none => fallback }

/-- The stable descending comparison used to model
`ranking.sort(key=lambda item: item["score"], reverse=True)`. -/
def scoreGE (a b : MatchResult) : Prop := b.score ≤ a.score

instance : DecidableRel scoreGE := fun a b => inferInstanceAs (Decidable (b.score ≤ a.score))

instance : IsTotal MatchResult scoreGE :=
  ⟨fun a b => (le_total b.score a.score).imp (fun h => h) (fun h => h)⟩

instance : IsTrans MatchResult scoreGE :=
  ⟨fun _ _ _ h1 h2 => le_trans h2 h1⟩

/-- `search_candidates` from `app.py`: build one ranking entry per stored
CV row (in the iteration order of the store), then sort stably by final
score, descending.  The similarity index and the explanation oracle are
the external collaborators `semanticHits` and `llmNotes`. -/
def search_candidates (tender : TenderJson) (rows : List CandidateRow)
    (semanticHits : ℕ → Option ℚ) (llmNotes : ℕ → Option (List String)) :
    List MatchResult :=
  if rows.isEmpty then []
  else
    (rows.map (mkMatchResult tender semanticHits llmNotes)).insertionSort scoreGE

/-- One row of the `tender_documents` table (`database.py`). -/
structure TenderRow where
  id : ℕ
  source_name : String
  file_path : String
  content_hash : String
  json_path : String
  title : String
  search_text : String
  required_skills_json : String
  created_at : String
deriving DecidableEq, Repr

/-- The payload `ingest_tender_file` passes to `insert_tender_document`. -/
structure TenderPayload where
  source_name : String
  file_path : String
  content_hash : String
  json_path : String
  title : String
  search_text : String
  required_skills_json : String
deriving DecidableEq, Repr

/-- SQLite `AUTOINCREMENT`: one more than the largest id ever used (for a
table that never deletes rows, one more than the largest present id). -/
def nextTenderId (table : List TenderRow) : ℕ :=
  (table.map TenderRow.id).foldl Nat.max 0 + 1

/-- `LocalDatabase.insert_tender_document` from `database.py`: if a row
with the payload's `content_hash` exists, return it and leave the table
unchanged; otherwise append a fresh row and return it.  The table is the
list of rows in insertion order; `now` is the `utc_now()` timestamp. -/
def insert_tender_document (table : List TenderRow) (payload : TenderPayload)
    (now : String) : List TenderRow × TenderRow :=
  match table.find? (fun r => r.content_hash == payload.content_hash) with
  | some existing => (table, existing)
  | none =>
    let row : TenderRow :=
      { id := nextTenderId table
        source_name := payload.source_name
        file_path := payload.file_path
        content_hash := payload.content_hash
        json_path := payload.json_path
        title := payload.title
        search_text := payload.search_text
        required_skills_json := payload.required_skills_json
        created_at := now }
    (table ++ [row], row)

/-- A JSON scalar as produced by `json.loads` on an enrichment response
(containers are rejected by `int(...)` exactly like `null`, so they are
not distinguished here). -/
inductive JValue where
  | jnull : JValue
  | jbool : Bool → JValue
  | jint : ℤ → JValue
  | jfloat : ℚ → JValue
  | jstr : String → JValue
deriving DecidableEq, Repr

/-- Digits-and-underscores check for the body of a Python integer literal:
non-empty, starts and ends with a digit, never two underscores in a row. -/
def pyIntBody : Bool → List Char → Bool
  | _, [] => false
  | _, [c] => c.isDigit
  | prevDigit, c :: rest =>
    if c.isDigit then pyIntBody true rest
    else if c = '_' then prevDigit && pyIntBody false rest
    else false

/-- Numeric value of a digit run, skipping underscores. -/
def pyIntVal (l : List Char) : ℕ :=
  l.foldl (fun acc c => if c.isDigit then 10 * acc + digitVal c else acc) 0

/-- Python `int(string)`: strip whitespace, optional sign, then digits with
optional single underscores between them; `none` models `ValueError`. -/
def pyIntOfString (s : String) : Option ℤ :=
  let t := (trimStr s).data
  match t with
  | '+' :: rest => if pyIntBody false rest then some (pyIntVal rest) else none
  | '-' :: rest => if pyIntBody false rest then some (-(pyIntVal rest : ℤ)) else none
  | rest => if pyIntBody false rest then some (pyIntVal rest) else none

/-- Python `int(x)` on a JSON scalar; `none` models `TypeError`/`ValueError`
(the exceptions `ingest_cv_file` catches and drops). Floats truncate
toward zero, booleans become 0/1. -/
def pyInt (v : JValue) : Option ℤ :=
  match v with
  | JValue.jnull => none
  | JValue.jbool b => some (if b then 1 else 0)
  | JValue.jint n => some n
  | JValue.jfloat q => some (if 0 ≤ q then ⌊q⌋ else -⌊-q⌋)
  | JValue.jstr s => pyIntOfString s

/-- The enrichment payload for a CV, as consumed by `ingest_cv_file`.
Each field is `none` when the key is absent from the oracle's JSON
response; `experience_years` keeps its raw JSON scalar because the code
applies `int(...)` to it. -/
structure EnrichPayload where
  full_name : Option String
  email : Option String
  phone : Option String
  professional_summary : Option String
  technical_skills : Option (List String)
  soft_skills : Option (List String)
  languages : Option (List String)
  education_level : Option String
  experience_years : Option JValue
deriving DecidableEq, Repr

/-- Python `a or b` for an optional string `a`: the enrichment value wins
only when present and non-empty. -/
def orNonEmpty (v : Option String) (fallback : String) : String :=
  match v with
  | some s => if s ≠ "" then s else fallback
  | none => fallback

/-- Ordered-dict insertion: overwrite in place when the key is present,
append otherwise. -/
def dictInsert (key : String) (val : LangEntry) :
    List (String × LangEntry) → List (String × LangEntry)
  | [] => [(key, val)]
  | (k, v) :: rest =>
    if k = key then (k, val) :: rest else (k, v) :: dictInsert key val rest

/-- The `existing` ordered dict of `ingest_cv_file`'s language merge: CV
language entries keyed by lower-cased name (entries with empty names are
skipped, later duplicates overwrite earlier ones in place). -/
def languageDict (entries : List LangEntry) : List (String × LangEntry) :=
  entries.foldl
    (fun acc item =>
      if item.name ≠ "" then dictInsert (lowerStr item.name) item acc else acc)
    []

/-- The enrichment-merge step of `ingest_cv_file` (`app.py` lines 175-222):
reconcile the heuristic profile with the oracle payload, field by field.
`none` models a falsy `enriched_cv` (oracle unavailable or empty
response), which leaves the heuristic profile untouched. -/
def merge_cv (cv : CvJson) (enriched : Option EnrichPayload) : CvJson :=
  match enriched with
  | none => cv
  | some e =>
    let personal :=
      { full_name := orNonEmpty e.full_name cv.personal_information.full_name
        email := orNonEmpty e.email cv.personal_information.email
        phone := orNonEmpty e.phone cv.personal_information.phone : CvPersonal }
    let summary := orNonEmpty e.professional_summary cv.professional_summary
    let llmSkills := e.technical_skills.getD []
    let technical :=
      if llmSkills ≠ [] then
        pySortedSet strLe
          (cv.skills_and_interests.technical_skills ++
            ((llmSkills.map trimStr).filter (fun s => s ≠ "")).map lowerStr)
      else cv.skills_and_interests.technical_skills
    let llmSoft := e.soft_skills.getD []
    let soft :=
      if llmSoft ≠ [] then
        pySortedSet strLe
          (cv.skills_and_interests.soft_skills ++
            (llmSoft.map trimStr).filter (fun s => s ≠ ""))
      else cv.skills_and_interests.soft_skills
    let llmLanguages := e.languages.getD []
    let languages :=
      if llmLanguages ≠ [] then
        (llmLanguages.foldl
            (fun acc language =>
              if trimStr language ≠ "" then
                dictInsert (lowerStr (trimStr language))
                  { name := titleCase (trimStr language), proficiency := none } acc
              else acc)
            (languageDict cv.skills_and_interests.languages)).map Prod.snd
      else cv.skills_and_interests.languages
    let educationLevel :=
      match e.education_level with
      | some s => if s ≠ "" then lowerStr (trimStr s) else cv.metadata.education_level
      | none => cv.metadata.education_level
    let experienceYears :=
      match e.experience_years with
      | some JValue.jnull => cv.metadata.experience_years
      | some v =>
        match pyInt v with
        | some n => n
        | none => cv.metadata.experience_years
      | none => cv.metadata.experience_years
    { personal_information := personal
      professional_summary := summary
      skills_and_interests :=
        { technical_skills := technical
          soft_skills := soft
          languages := languages }
      metadata :=
        { experience_years := experienceYears
          education_level := educationLevel } }

/-! ### Claim-side formulations

The following definitions restate the spec's wording of the scoring
components (set cardinalities written with `Finset`s), to be compared with
the list-based computation in `compute_lexical_score`. -/

/-- Skill overlap as the spec states it:
`(|required_skills ∩ candidate_skills| / |required_skills|) * 45` if
`required_skills` is non-empty, else a flat 25. -/
def skillOverlapComponent (t : TenderJson) (cv : CvJson) : ℚ :=
  let required := t.required_skills.toFinset
  let candidate := cv.skills_and_interests.technical_skills.toFinset
  if required.card ≠ 0 then
    ((required ∩ candidate).card : ℚ) / (required.card : ℚ) * 45
  else 25

/-- Language overlap as the spec states it, over the lower-cased non-empty
language names. -/
def languageOverlapComponent (t : TenderJson) (cv : CvJson) : ℚ :=
  let required := ((t.languages.filter (fun s => s ≠ "")).map lowerStr).toFinset
  let candidate :=
    (((cv.skills_and_interests.languages.map LangEntry.name).filter
        (fun s => s ≠ "")).map lowerStr).toFinset
  if required.card ≠ 0 then
    ((required ∩ candidate).card : ℚ) / (required.card : ℚ) * 15
  else 8

/-- Experience component as the spec states it:
`min(candidate/required, 1.0) * 15` when required experience is positive,
else a flat 8. -/
def experienceComponent (t : TenderJson) (cv : CvJson) : ℚ :=
  if 0 < t.experience_level then
    min ((cv.metadata.experience_years : ℚ) / (t.experience_level : ℚ)) 1 * 15
  else 8

/-- Education component as the spec states it: 10 when the candidate's
education rank reaches the required rank, 4 otherwise, when a rank is
required; a flat 6 when none is. -/
def educationComponent (t : TenderJson) (cv : CvJson) : ℚ :=
  if 0 < education_rank t.education_level then
    (if education_rank t.education_level ≤ education_rank cv.metadata.education_level
      then 10 else 4)
  else 6

/-! ### Helper lemmas -/

theorem mem_pySortedSet {α : Type} [DecidableEq α] (le : α → α → Bool)
    (l : List α) (a : α) : a ∈ pySortedSet le l ↔ a ∈ l := by
  unfold pySortedSet
  rw [List.mem_insertionSort, List.mem_dedup]

theorem nodup_pySortedSet {α : Type} [DecidableEq α] (le : α → α → Bool)
    (l : List α) : (pySortedSet le l).Nodup := by
  unfold pySortedSet
  exact (List.perm_insertionSort _ l.dedup).nodup_iff.mpr l.nodup_dedup

theorem length_pySortedSet {α : Type} [DecidableEq α] (le : α → α → Bool)
    (l : List α) : (pySortedSet le l).length = l.toFinset.card := by
  unfold pySortedSet
  rw [List.length_insertionSort, List.card_toFinset]

theorem length_filter_mem_pySortedSet {α : Type} [DecidableEq α]
    (le : α → α → Bool) (l c : List α) :
    ((pySortedSet le l).filter (fun a => decide (a ∈ pySortedSet le c))).length =
      (l.toFinset ∩ c.toFinset).card := by
  have hnd : ((pySortedSet le l).filter
      (fun a => decide (a ∈ pySortedSet le c))).Nodup :=
    (nodup_pySortedSet le l).filter _
  have hset : ((pySortedSet le l).filter
      (fun a => decide (a ∈ pySortedSet le c))).toFinset =
      l.toFinset ∩ c.toFinset := by
    ext a
    simp only [List.mem_toFinset, List.mem_filter, mem_pySortedSet,
      Finset.mem_inter, decide_eq_true_eq]
  rw [← List.toFinset_card_of_nodup hnd, hset]

theorem round2_mono {x y : ℚ} (h : x ≤ y) : round2 x ≤ round2 y := by
  unfold round2
  have hr : round (x * 100) ≤ round (y * 100) := by
    rw [round_eq, round_eq]
    exact Int.floor_le_floor (by linarith)
  have h2 : ((round (x * 100) : ℤ) : ℚ) ≤ ((round (y * 100) : ℤ) : ℚ) := by
    exact_mod_cast hr
  linarith

theorem round2_hundredth (n : ℤ) : round2 ((n : ℚ) / 100) = (n : ℚ) / 100 := by
  unfold round2
  rw [div_mul_cancel₀ _ (by norm_num : (100 : ℚ) ≠ 0), round_intCast]

theorem round2_intCast (n : ℤ) : round2 (n : ℚ) = n := by
  have h := round2_hundredth (100 * n)
  rw [show (((100 * n : ℤ) : ℚ) / 100) = (n : ℚ) by push_cast; ring] at h
  exact h

/-- The lexical score is the rounded sum of the four spec components, for
well-formed profiles (non-negative required experience, as the data model
demands: the code tests `required_experience != 0` where the spec says
`> 0`). -/
theorem lexical_formula (t : TenderJson) (cv : CvJson)
    (h : 0 ≤ t.experience_level) :
    (compute_lexical_score t cv).lexical_score =
      round2 (skillOverlapComponent t cv + languageOverlapComponent t cv +
        experienceComponent t cv + educationComponent t cv) := by
  have hiff1 : (t.experience_level ≠ 0) = (0 < t.experience_level) := by
    apply propext; omega
  have hiff2 : (education_rank t.education_level ≠ 0) =
      (0 < education_rank t.education_level) := by
    apply propext; omega
  unfold compute_lexical_score skillOverlapComponent languageOverlapComponent
    experienceComponent educationComponent
  simp only [length_filter_mem_pySortedSet, length_pySortedSet, hiff1, hiff2,
    ge_iff_le]

/-- The requirement profile of the spec's worked scenario. -/
def exampleTender : TenderJson :=
  { title := "example"
    required_skills := ["python", "sql"]
    preferred_skills := []
    experience_level := 3
    languages := []
    education_level := "bachelor"
    summary := "" }

/-- The candidate profile of the spec's worked scenario. -/
def exampleCv : CvJson :=
  { personal_information := { full_name := "Example", email := "", phone := "" }
    professional_summary := ""
    skills_and_interests :=
      { technical_skills := ["python"], soft_skills := [], languages := [] }
    metadata := { experience_years := 3, education_level := "master" } }

/-- C1: for every requirement and candidate profile (well-formed, so with a
non-negative required experience), the lexical score is the rounded sum of
the four components exactly as the spec states them: skill overlap scaled
to 45 (flat 25 without required skills), language overlap scaled to 15
(flat 8), experience ratio capped at 1 and scaled to 15 (flat 8), and
education 10/4 against the rank order (flat 6); and on the spec's worked
scenario the lexical score is exactly 55.5. -/
theorem claim_C1_lexical_score_formula (t : TenderJson) (cv : CvJson)
    (h : 0 ≤ t.experience_level) :
    (compute_lexical_score t cv).lexical_score =
      round2 (skillOverlapComponent t cv + languageOverlapComponent t cv +
        experienceComponent t cv + educationComponent t cv) ∧
    (compute_lexical_score exampleTender exampleCv).lexical_score = 111 / 2 := by
  constructor
  · exact lexical_formula t cv h
  · rw [lexical_formula exampleTender exampleCv (by norm_num [exampleTender])]
    have h1 : skillOverlapComponent exampleTender exampleCv = 45 / 2 := by
      have hc : (exampleTender.required_skills.toFinset ∩
          exampleCv.skills_and_interests.technical_skills.toFinset).card = 1 := by decide
      have hr : exampleTender.required_skills.toFinset.card = 2 := by decide
      simp only [skillOverlapComponent]
      rw [hc, hr]
      norm_num
    have h2 : languageOverlapComponent exampleTender exampleCv = 8 := by
      simp only [languageOverlapComponent]
      norm_num [exampleTender, exampleCv]
    have h3 : experienceComponent exampleTender exampleCv = 15 := by
      simp only [experienceComponent]
      norm_num [exampleTender, exampleCv]
    have h4 : educationComponent exampleTender exampleCv = 10 := by
      have hrt : education_rank exampleTender.education_level = 1 := by decide
      have hrc : education_rank exampleCv.metadata.education_level = 2 := by decide
      simp only [educationComponent]
      rw [hrt, hrc]
      norm_num
    rw [h1, h2, h3, h4]
    rw [show (45 / 2 + 8 + 15 + 10 : ℚ) = (5550 : ℤ) / 100 by norm_num]
    rw [round2_hundredth]
    norm_num

/-- Witness for C1 at the spec's worked scenario. -/
theorem claim_C1_witness :
    0 ≤ exampleTender.experience_level ∧
      (compute_lexical_score exampleTender exampleCv).lexical_score = 111 / 2 :=
  ⟨by norm_num [exampleTender],
    (claim_C1_lexical_score_formula exampleTender exampleCv
      (by norm_num [exampleTender])).2⟩

/-- C2: for every similarity distance, the semantic score is
`round((1 - clamp(d, 0, 1)) * 100, 2)`; distance 0 maps to 100, distance 1
maps to 0, and an absent distance maps to exactly 0 (the candidate is
scored, not excluded). -/
theorem claim_C2_semantic_distance_transform :
    (∀ d : ℚ, semantic_distance_to_score (some d) =
      round2 ((1 - min (max d 0) 1) * 100)) ∧
    semantic_distance_to_score (some 0) = 100 ∧
    semantic_distance_to_score (some 1) = 0 ∧
    semantic_distance_to_score none = 0 := by
  refine ⟨fun d => rfl, ?_, ?_, rfl⟩
  · show round2 ((1 - min (max 0 0) 1) * 100) = 100
    rw [show ((1 - min (max (0:ℚ) 0) 1) * 100) = ((10000 : ℤ) / 100) by norm_num]
    rw [round2_hundredth]
    norm_num
  · show round2 ((1 - min (max 1 0) 1) * 100) = 0
    rw [show ((1 - min (max (1:ℚ) 0) 1) * 100) = ((0 : ℤ) / 100) by norm_num]
    rw [round2_hundredth]
    norm_num

theorem skillOverlapComponent_bounds (t : TenderJson) (cv : CvJson) :
    0 ≤ skillOverlapComponent t cv ∧ skillOverlapComponent t cv ≤ 45 := by
  simp only [skillOverlapComponent]
  set required := t.required_skills.toFinset
  set candidate := cv.skills_and_interests.technical_skills.toFinset
  by_cases hc : required.card ≠ 0
  · rw [if_pos hc]
    have hle : (required ∩ candidate).card ≤ required.card :=
      Finset.card_le_card Finset.inter_subset_left
    have hpos : (0 : ℚ) < (required.card : ℚ) := by
      exact_mod_cast Nat.pos_of_ne_zero hc
    have hratio1 : ((required ∩ candidate).card : ℚ) / (required.card : ℚ) ≤ 1 := by
      rw [div_le_one hpos]
      exact_mod_cast hle
    have hratio0 : 0 ≤ ((required ∩ candidate).card : ℚ) / (required.card : ℚ) :=
      div_nonneg (by positivity) (le_of_lt hpos)
    constructor
    · positivity
    · nlinarith
  · rw [if_neg hc]
    norm_num

theorem languageOverlapComponent_bounds (t : TenderJson) (cv : CvJson) :
    0 ≤ languageOverlapComponent t cv ∧ languageOverlapComponent t cv ≤ 15 := by
  simp only [languageOverlapComponent]
  set required := ((t.languages.filter (fun s => s ≠ "")).map lowerStr).toFinset
  set candidate :=
    (((cv.skills_and_interests.languages.map LangEntry.name).filter
        (fun s => s ≠ "")).map lowerStr).toFinset
  by_cases hc : required.card ≠ 0
  · rw [if_pos hc]
    have hle : (required ∩ candidate).card ≤ required.card :=
      Finset.card_le_card Finset.inter_subset_left
    have hpos : (0 : ℚ) < (required.card : ℚ) := by
      exact_mod_cast Nat.pos_of_ne_zero hc
    have hratio1 : ((required ∩ candidate).card : ℚ) / (required.card : ℚ) ≤ 1 := by
      rw [div_le_one hpos]
      exact_mod_cast hle
    have hratio0 : 0 ≤ ((required ∩ candidate).card : ℚ) / (required.card : ℚ) :=
      div_nonneg (by positivity) (le_of_lt hpos)
    constructor
    · positivity
    · nlinarith
  · rw [if_neg hc]
    norm_num

theorem experienceComponent_bounds (t : TenderJson) (cv : CvJson)
    (h2 : 0 ≤ cv.metadata.experience_years) :
    0 ≤ experienceComponent t cv ∧ experienceComponent t cv ≤ 15 := by
  simp only [experienceComponent]
  by_cases hc : 0 < t.experience_level
  · rw [if_pos hc]
    have hcp : (0 : ℚ) ≤ (cv.metadata.experience_years : ℚ) := by exact_mod_cast h2
    have hrp : (0 : ℚ) < (t.experience_level : ℚ) := by exact_mod_cast hc
    have hmin0 : 0 ≤ min ((cv.metadata.experience_years : ℚ) /
        (t.experience_level : ℚ)) 1 :=
      le_min (div_nonneg hcp (le_of_lt hrp)) (by norm_num)
    have hmin1 : min ((cv.metadata.experience_years : ℚ) /
        (t.experience_level : ℚ)) 1 ≤ 1 := min_le_right _ _
    constructor
    · positivity
    · nlinarith
  · rw [if_neg hc]
    norm_num

theorem educationComponent_bounds (t : TenderJson) (cv : CvJson) :
    4 ≤ educationComponent t cv ∧ educationComponent t cv ≤ 10 := by
  simp only [educationComponent]
  by_cases hc : 0 < education_rank t.education_level
  · rw [if_pos hc]
    by_cases hd : education_rank t.education_level ≤
        education_rank cv.metadata.education_level
    · rw [if_pos hd]; norm_num
    · rw [if_neg hd]; norm_num
  · rw [if_neg hc]
    norm_num

/-- The lexical score of a well-formed pair lies in [4, 85]. -/
theorem lexical_score_bounds (t : TenderJson) (cv : CvJson)
    (h1 : 0 ≤ t.experience_level) (h2 : 0 ≤ cv.metadata.experience_years) :
    4 ≤ (compute_lexical_score t cv).lexical_score ∧
      (compute_lexical_score t cv).lexical_score ≤ 85 := by
  rw [lexical_formula t cv h1]
  obtain ⟨s0, s1⟩ := skillOverlapComponent_bounds t cv
  obtain ⟨l0, l1⟩ := languageOverlapComponent_bounds t cv
  obtain ⟨e0, e1⟩ := experienceComponent_bounds t cv h2
  obtain ⟨d0, d1⟩ := educationComponent_bounds t cv
  constructor
  · have h4 : round2 ((4 : ℤ) : ℚ) = ((4 : ℤ) : ℚ) := round2_intCast 4
    have := round2_mono (x := ((4 : ℤ) : ℚ))
      (y := skillOverlapComponent t cv + languageOverlapComponent t cv +
        experienceComponent t cv + educationComponent t cv) (by push_cast; linarith)
    rw [h4] at this
    exact_mod_cast this
  · have h85 : round2 ((85 : ℤ) : ℚ) = ((85 : ℤ) : ℚ) := round2_intCast 85
    have := round2_mono
      (x := skillOverlapComponent t cv + languageOverlapComponent t cv +
        experienceComponent t cv + educationComponent t cv)
      (y := ((85 : ℤ) : ℚ)) (by push_cast; linarith)
    rw [h85] at this
    exact_mod_cast this

/-- The semantic score lies in [0, 100] for every distance, present or
absent. -/
theorem semantic_score_bounds (d : Option ℚ) :
    0 ≤ semantic_distance_to_score d ∧ semantic_distance_to_score d ≤ 100 := by
  match d with
  | none =>
    refine ⟨le_refl 0, ?_⟩
    show (0 : ℚ) ≤ 100
    norm_num
  | some x =>
    show 0 ≤ round2 ((1 - min (max x 0) 1) * 100) ∧
      round2 ((1 - min (max x 0) 1) * 100) ≤ 100
    have hm0 : 0 ≤ min (max x 0) 1 := le_min (le_max_right x 0) (by norm_num)
    have hm1 : min (max x 0) 1 ≤ 1 := min_le_right _ _
    constructor
    · have h0 : round2 ((0 : ℤ) : ℚ) = ((0 : ℤ) : ℚ) := round2_intCast 0
      have := round2_mono (x := ((0 : ℤ) : ℚ))
        (y := (1 - min (max x 0) 1) * 100) (by push_cast; nlinarith)
      rw [h0] at this
      exact_mod_cast this
    · have h100 : round2 ((100 : ℤ) : ℚ) = ((100 : ℤ) : ℚ) := round2_intCast 100
      have := round2_mono (x := (1 - min (max x 0) 1) * 100)
        (y := ((100 : ℤ) : ℚ)) (by push_cast; nlinarith)
      rw [h100] at this
      exact_mod_cast this

theorem final_score_le (lex sem bl : ℚ) (hl : lex ≤ bl) (hs : sem ≤ 100) :
    final_score_calc lex sem ≤ round2 (bl * (55 / 100) + 45) := by
  unfold final_score_calc
  apply round2_mono
  nlinarith

theorem final_score_nonneg (lex sem : ℚ) (hl : 0 ≤ lex) (hs : 0 ≤ sem) :
    0 ≤ final_score_calc lex sem := by
  unfold final_score_calc
  have h0 : round2 ((0 : ℤ) : ℚ) = ((0 : ℤ) : ℚ) := round2_intCast 0
  have := round2_mono (x := ((0 : ℤ) : ℚ))
    (y := lex * (55 / 100) + sem * (45 / 100)) (by push_cast; nlinarith)
  rw [h0] at this
  exact_mod_cast this

/-- C8: for every well-formed requirement/candidate pair and every
similarity distance (including an absent one), the lexical score, the
semantic score and the final score all lie in [0, 100]. -/
theorem claim_C8_scores_within_bounds (t : TenderJson) (cv : CvJson)
    (d : Option ℚ) (h1 : 0 ≤ t.experience_level)
    (h2 : 0 ≤ cv.metadata.experience_years) :
    (0 ≤ (compute_lexical_score t cv).lexical_score ∧
      (compute_lexical_score t cv).lexical_score ≤ 100) ∧
    (0 ≤ semantic_distance_to_score d ∧ semantic_distance_to_score d ≤ 100) ∧
    (0 ≤ final_score_calc (compute_lexical_score t cv).lexical_score
        (semantic_distance_to_score d) ∧
      final_score_calc (compute_lexical_score t cv).lexical_score
        (semantic_distance_to_score d) ≤ 100) := by
  obtain ⟨hl4, hl85⟩ := lexical_score_bounds t cv h1 h2
  obtain ⟨hs0, hs100⟩ := semantic_score_bounds d
  have hl0 : 0 ≤ (compute_lexical_score t cv).lexical_score := by linarith
  have hl100 : (compute_lexical_score t cv).lexical_score ≤ 100 := by linarith
  refine ⟨⟨hl0, hl100⟩, ⟨hs0, hs100⟩, final_score_nonneg _ _ hl0 hs0, ?_⟩
  have h := final_score_le (compute_lexical_score t cv).lexical_score
    (semantic_distance_to_score d) 100 hl100 hs100
  have hfix : round2 ((100 : ℚ) * (55 / 100) + 45) = (10000 : ℤ) / 100 := by
    rw [show ((100 : ℚ) * (55 / 100) + 45) = ((10000 : ℤ) / 100) by norm_num]
    exact round2_hundredth 10000
  rw [hfix] at h
  have hcast : ((10000 : ℤ) : ℚ) / 100 = 100 := by norm_num
  linarith

/-- Witness for C8 at the worked scenario with an absent distance. -/
theorem claim_C8_witness :
    0 ≤ exampleTender.experience_level ∧
      0 ≤ exampleCv.metadata.experience_years ∧
      final_score_calc (compute_lexical_score exampleTender exampleCv).lexical_score
        (semantic_distance_to_score none) ≤ 100 :=
  ⟨by norm_num [exampleTender], by norm_num [exampleCv],
    (claim_C8_scores_within_bounds exampleTender exampleCv none
      (by norm_num [exampleTender]) (by norm_num [exampleCv])).2.2.2⟩

/-- C10: the lexical score always lies in the tighter interval [4, 85], so
the final score never exceeds `round(85*0.55 + 100*0.45, 2) = 91.75` and a
final score of 100 is unattainable. -/
theorem claim_C10_tight_bounds (t : TenderJson) (cv : CvJson) (d : Option ℚ)
    (h1 : 0 ≤ t.experience_level) (h2 : 0 ≤ cv.metadata.experience_years) :
    (4 ≤ (compute_lexical_score t cv).lexical_score ∧
      (compute_lexical_score t cv).lexical_score ≤ 85) ∧
    final_score_calc (compute_lexical_score t cv).lexical_score
        (semantic_distance_to_score d) ≤ 9175 / 100 ∧
    final_score_calc (compute_lexical_score t cv).lexical_score
        (semantic_distance_to_score d) < 100 := by
  obtain ⟨hl4, hl85⟩ := lexical_score_bounds t cv h1 h2
  obtain ⟨hs0, hs100⟩ := semantic_score_bounds d
  have h := final_score_le (compute_lexical_score t cv).lexical_score
    (semantic_distance_to_score d) 85 hl85 hs100
  have hfix : round2 ((85 : ℚ) * (55 / 100) + 45) = (9175 : ℤ) / 100 := by
    rw [show ((85 : ℚ) * (55 / 100) + 45) = ((9175 : ℤ) / 100) by norm_num]
    exact round2_hundredth 9175
  rw [hfix] at h
  have hcast : ((9175 : ℤ) : ℚ) / 100 = 9175 / 100 := by norm_num
  have h9175 : final_score_calc (compute_lexical_score t cv).lexical_score
      (semantic_distance_to_score d) ≤ 9175 / 100 := by linarith
  exact ⟨⟨hl4, hl85⟩, h9175, by linarith⟩

/-- Witness for C10 at the worked scenario with an absent distance. -/
theorem claim_C10_witness :
    0 ≤ exampleTender.experience_level ∧
      0 ≤ exampleCv.metadata.experience_years ∧
      final_score_calc (compute_lexical_score exampleTender exampleCv).lexical_score
        (semantic_distance_to_score none) < 100 :=
  ⟨by norm_num [exampleTender], by norm_num [exampleCv],
    (claim_C10_tight_bounds exampleTender exampleCv none
      (by norm_num [exampleTender]) (by norm_num [exampleCv])).2.2⟩

/-- Replace a candidate profile's technical skill list, leaving every other
field unchanged (used to state "identical except for the skill set"). -/
def setTechSkills (cv : CvJson) (sk : List String) : CvJson :=
  { cv with skills_and_interests :=
      { cv.skills_and_interests with technical_skills := sk } }

/-- Number of required skills a candidate skill list matches. -/
def matchedSkillCount (t : TenderJson) (sk : List String) : ℕ :=
  (t.required_skills.toFinset ∩ sk.toFinset).card

/-- C9: with non-empty required skills, a candidate identical except for
matching strictly more required skills never gets a lower lexical score. -/
theorem claim_C9_matched_skills_monotone (t : TenderJson) (cv : CvJson)
    (sk1 sk2 : List String) (hreq : t.required_skills ≠ [])
    (hcnt : matchedSkillCount t sk1 < matchedSkillCount t sk2) :
    (compute_lexical_score t (setTechSkills cv sk1)).lexical_score ≤
      (compute_lexical_score t (setTechSkills cv sk2)).lexical_score := by
  have hcard : t.required_skills.toFinset.card ≠ 0 := by
    intro hzero
    rcases List.exists_mem_of_ne_nil _ hreq with ⟨a, ha⟩
    have : a ∈ t.required_skills.toFinset := List.mem_toFinset.mpr ha
    have := Finset.card_pos.mpr ⟨a, this⟩
    omega
  unfold compute_lexical_score
  simp only [setTechSkills]
  apply round2_mono
  have hlen : (pySortedSet strLe t.required_skills).length ≠ 0 := by
    rw [length_pySortedSet]; exact hcard
  rw [if_pos hlen, if_pos hlen]
  have hm1 := length_filter_mem_pySortedSet strLe t.required_skills sk1
  have hm2 := length_filter_mem_pySortedSet strLe t.required_skills sk2
  rw [hm1, hm2, length_pySortedSet]
  have hpos : (0 : ℚ) < (t.required_skills.toFinset.card : ℚ) := by
    exact_mod_cast Nat.pos_of_ne_zero hcard
  have hmono : ((t.required_skills.toFinset ∩ sk1.toFinset).card : ℚ) /
        (t.required_skills.toFinset.card : ℚ) * 45 ≤
      ((t.required_skills.toFinset ∩ sk2.toFinset).card : ℚ) /
        (t.required_skills.toFinset.card : ℚ) * 45 := by
    have hle : ((t.required_skills.toFinset ∩ sk1.toFinset).card : ℚ) ≤
        ((t.required_skills.toFinset ∩ sk2.toFinset).card : ℚ) := by
      have := le_of_lt hcnt
      unfold matchedSkillCount at this
      exact_mod_cast this
    gcongr
  linarith

/-- Witness for C9: adding the matching skill "sql" raises the count. -/
theorem claim_C9_witness :
    exampleTender.required_skills ≠ [] ∧
      matchedSkillCount exampleTender ["python"] <
        matchedSkillCount exampleTender ["python", "sql"] ∧
      (compute_lexical_score exampleTender
          (setTechSkills exampleCv ["python"])).lexical_score ≤
        (compute_lexical_score exampleTender
          (setTechSkills exampleCv ["python", "sql"])).lexical_score :=
  ⟨by decide, by decide,
    claim_C9_matched_skills_monotone exampleTender exampleCv
      (["python"]) (["python", "sql"]) (by decide) (by decide)⟩

theorem filter_orderedInsert_pos {α : Type} (r : α → α → Prop) [DecidableRel r]
    (p : α → Bool) (hp : ∀ x y, p x = true → p y = true → r x y) (x : α)
    (l : List α) (hx : p x = true) :
    (List.orderedInsert r x l).filter p = x :: l.filter p := by
  induction l with
  | nil => simp [List.orderedInsert, hx]
  | cons b bs ih =>
    by_cases hr : r x b
    · simp [List.orderedInsert, hr, hx]
    · have hpb : p b = false := by
        cases hb : p b with
        | true => exact absurd (hp x b hx hb) hr
        | false => rfl
      simp [List.orderedInsert, hr, List.filter_cons, hpb, ih]

theorem filter_orderedInsert_neg {α : Type} (r : α → α → Prop) [DecidableRel r]
    (p : α → Bool) (x : α) (l : List α) (hx : p x = false) :
    (List.orderedInsert r x l).filter p = l.filter p := by
  induction l with
  | nil => simp [List.orderedInsert, hx]
  | cons b bs ih =>
    by_cases hr : r x b
    · simp [List.orderedInsert, hr, List.filter_cons, hx]
    · simp [List.orderedInsert, hr, List.filter_cons, ih]

/-- A stable sort leaves the elements of each equivalence class of the key
in their original relative order: filtering by any property that forces
ties commutes with the sort. -/
theorem filter_insertionSort {α : Type} (r : α → α → Prop) [DecidableRel r]
    (p : α → Bool) (hp : ∀ x y, p x = true → p y = true → r x y)
    (l : List α) : (l.insertionSort r).filter p = l.filter p := by
  induction l with
  | nil => rfl
  | cons a l ih =>
    show (List.orderedInsert r a (l.insertionSort r)).filter p = _
    cases ha : p a with
    | true =>
      rw [filter_orderedInsert_pos r p hp a _ ha, ih, List.filter_cons, ha]
      simp
    | false =>
      rw [filter_orderedInsert_neg r p a _ ha, ih, List.filter_cons, ha]
      simp

/-- C3: the ranking engine returns the empty list on an empty candidate
collection, produces exactly one `MatchResult` per stored candidate (a
permutation of the per-row results), sorts them descending by final score,
is stable (candidates with equal final scores stay in the store's
iteration order), and every entry's final score is
`round(lexical*0.55 + semantic*0.45, 2)`. -/
theorem claim_C3_ranking_engine (t : TenderJson) (rows : List CandidateRow)
    (semanticHits : ℕ → Option ℚ) (llmNotes : ℕ → Option (List String)) :
    search_candidates t [] semanticHits llmNotes = [] ∧
    (search_candidates t rows semanticHits llmNotes).Perm
      (rows.map (mkMatchResult t semanticHits llmNotes)) ∧
    List.Pairwise (fun a b => b.score ≤ a.score)
      (search_candidates t rows semanticHits llmNotes) ∧
    (∀ s : ℚ,
      (search_candidates t rows semanticHits llmNotes).filter
          (fun m => decide (m.score = s)) =
        (rows.map (mkMatchResult t semanticHits llmNotes)).filter
          (fun m => decide (m.score = s))) ∧
    (∀ m ∈ search_candidates t rows semanticHits llmNotes,
      m.score = final_score_calc m.lexical_score m.semantic_score) := by
  refine ⟨rfl, ?_, ?_, ?_, ?_⟩
  · unfold search_candidates
    by_cases hrows : rows.isEmpty
    · rw [if_pos hrows]
      rw [List.isEmpty_iff.mp hrows]
      exact List.Perm.refl _
    · rw [if_neg hrows]
      exact List.perm_insertionSort _ _
  · unfold search_candidates
    by_cases hrows : rows.isEmpty
    · rw [if_pos hrows]; exact List.Pairwise.nil
    · rw [if_neg hrows]
      have hs := List.sorted_insertionSort scoreGE
        (rows.map (mkMatchResult t semanticHits llmNotes))
      exact hs.imp (fun h => h)
  · intro s
    unfold search_candidates
    by_cases hrows : rows.isEmpty
    · rw [if_pos hrows]
      rw [List.isEmpty_iff.mp hrows]
      rfl
    · rw [if_neg hrows]
      exact filter_insertionSort scoreGE (fun m => decide (m.score = s))
        (fun x y hx hy => by
          have hxs : x.score = s := of_decide_eq_true hx
          have hys : y.score = s := of_decide_eq_true hy
          show y.score ≤ x.score
          rw [hxs, hys]) _
  · intro m hm
    unfold search_candidates at hm
    by_cases hrows : rows.isEmpty
    · rw [if_pos hrows] at hm
      exact absurd hm (List.not_mem_nil m)
    · rw [if_neg hrows] at hm
      rw [List.mem_insertionSort] at hm
      rcases List.mem_map.mp hm with ⟨row, _, hrow⟩
      subst hrow
      rfl

/-- Witness for C3: an empty store yields an empty ranking. -/
theorem claim_C3_witness :
    search_candidates exampleTender [] (fun _ => none) (fun _ => none) = [] :=
  (claim_C3_ranking_engine exampleTender [] (fun _ => none) (fun _ => none)).1

theorem insert_tender_found (table : List TenderRow) (p : TenderPayload)
    (now : String) (row : TenderRow)
    (h : table.find? (fun r => r.content_hash == p.content_hash) = some row) :
    insert_tender_document table p now = (table, row) := by
  unfold insert_tender_document
  rw [h]

theorem find_insert_self (table : List TenderRow) (p : TenderPayload)
    (now : String) :
    (insert_tender_document table p now).1.find?
        (fun r => r.content_hash == p.content_hash) =
      some (insert_tender_document table p now).2 := by
  unfold insert_tender_document
  cases hfind : table.find? (fun r => r.content_hash == p.content_hash) with
  | some row => simp only [hfind]
  | none =>
    simp only [hfind]
    rw [List.find?_append, hfind]
    simp [List.find?]

/-- C6: ingesting a tender whose fingerprint is already stored returns the
previously stored record (same identity, every field unchanged) and
inserts no new row.  Stated both directly (a store that already holds the
hash is left untouched and the stored row is returned) and as the spec's
sequential scenario: a second ingestion with the same fingerprint
(identical bytes give an identical digest) returns exactly what the first
one stored, with the table unchanged. -/
theorem claim_C6_tender_reingest_noop (table : List TenderRow)
    (p1 p2 : TenderPayload) (now1 now2 : String)
    (hhash : p2.content_hash = p1.content_hash) :
    (∀ row, table.find? (fun r => r.content_hash == p1.content_hash) = some row →
      insert_tender_document table p1 now1 = (table, row)) ∧
    insert_tender_document (insert_tender_document table p1 now1).1 p2 now2 =
      ((insert_tender_document table p1 now1).1,
        (insert_tender_document table p1 now1).2) := by
  constructor
  · intro row hrow
    exact insert_tender_found table p1 now1 row hrow
  · have h := find_insert_self table p1 now1
    have h2 : (insert_tender_document table p1 now1).1.find?
        (fun r => r.content_hash == p2.content_hash) =
        some (insert_tender_document table p1 now1).2 := by
      simp only [hhash]
      exact h
    exact insert_tender_found _ p2 now2 _ h2

/-- A stored tender row used by the C6 witness. -/
def exampleTenderRow : TenderRow :=
  { id := 1, source_name := "a.txt", file_path := "bank/a.txt"
    content_hash := "h1", json_path := "a.json", title := "A"
    search_text := "A text", required_skills_json := "[]"
    created_at := "t0" }

/-- A payload carrying the same fingerprint, used by the C6 witness. -/
def exampleTenderPayload : TenderPayload :=
  { source_name := "b.txt", file_path := "uploads/b.txt"
    content_hash := "h1", json_path := "b.json", title := "B"
    search_text := "B text", required_skills_json := "[]" }

/-- Witness for C6: a store already holding the ingested fingerprint is
returned unchanged together with the stored row. -/
theorem claim_C6_witness :
    [exampleTenderRow].find?
        (fun r => r.content_hash == exampleTenderPayload.content_hash) =
      some exampleTenderRow ∧
    insert_tender_document [exampleTenderRow] exampleTenderPayload ("t1") =
      ([exampleTenderRow], exampleTenderRow) :=
  ⟨by decide,
    (claim_C6_tender_reingest_noop [exampleTenderRow] exampleTenderPayload
        exampleTenderPayload ("t1") ("t2") rfl).1 exampleTenderRow (by decide)⟩

theorem toFinset_pySortedSet {α : Type} [DecidableEq α] (le : α → α → Bool)
    (l : List α) : (pySortedSet le l).toFinset = l.toFinset := by
  ext a
  simp only [List.mem_toFinset, mem_pySortedSet]

/-- An enrichment response carrying only `technical_skills`. -/
def onlyTechSkillsPayload (sk : List String) : EnrichPayload :=
  { full_name := none, email := none, phone := none
    professional_summary := none, technical_skills := some sk
    soft_skills := none, languages := none, education_level := none
    experience_years := none }

/-- C7: merging an enrichment payload that carries only technical skills
unions the trimmed, lower-cased enrichment skills into the heuristic skill
set and leaves every other field (identity fields, summary, soft skills,
languages, education level, experience years) untouched; and an
enrichment `experience_years` that does not parse as an integer is
dropped silently, keeping the heuristic value. -/
theorem claim_C7_merge_only_skills (cv : CvJson) (sk : List String)
    (hsk : sk ≠ []) (e : EnrichPayload) (v : JValue)
    (hv : e.experience_years = some v) (hbad : pyInt v = none) :
    ((merge_cv cv (some (onlyTechSkillsPayload sk))).skills_and_interests.technical_skills.toFinset =
        cv.skills_and_interests.technical_skills.toFinset ∪
          (((sk.map trimStr).filter (fun s => s ≠ "")).map lowerStr).toFinset) ∧
    (merge_cv cv (some (onlyTechSkillsPayload sk))).personal_information =
      cv.personal_information ∧
    (merge_cv cv (some (onlyTechSkillsPayload sk))).professional_summary =
      cv.professional_summary ∧
    (merge_cv cv (some (onlyTechSkillsPayload sk))).skills_and_interests.soft_skills =
      cv.skills_and_interests.soft_skills ∧
    (merge_cv cv (some (onlyTechSkillsPayload sk))).skills_and_interests.languages =
      cv.skills_and_interests.languages ∧
    (merge_cv cv (some (onlyTechSkillsPayload sk))).metadata = cv.metadata ∧
    (merge_cv cv (some e)).metadata.experience_years =
      cv.metadata.experience_years := by
  refine ⟨?_, ?_, ?_, ?_, ?_, ?_, ?_⟩
  · simp only [merge_cv, onlyTechSkillsPayload, Option.getD_some]
    rw [if_pos hsk]
    rw [toFinset_pySortedSet, List.toFinset_append]
  · simp only [merge_cv, onlyTechSkillsPayload, orNonEmpty]
  · simp only [merge_cv, onlyTechSkillsPayload, orNonEmpty]
  · simp only [merge_cv, onlyTechSkillsPayload, Option.getD_none]
    rw [if_neg (by simp)]
  · simp only [merge_cv, onlyTechSkillsPayload, Option.getD_none]
    rw [if_neg (by simp)]
  · simp only [merge_cv, onlyTechSkillsPayload]
  · rcases v with _ | b | n | q | s
    · simp only [merge_cv, hv]
    · simp only [pyInt] at hbad
      exact absurd hbad (by simp)
    · simp only [pyInt] at hbad
      exact absurd hbad (by simp)
    · simp only [pyInt] at hbad
      exact absurd hbad (by simp)
    · simp only [merge_cv, hv, pyInt] at hbad ⊢
      rw [hbad]

/-- Witness for C7: Docker-only enrichment with a malformed experience
value on a one-skill heuristic profile. -/
theorem claim_C7_witness :
    (["Docker"] : List String) ≠ [] ∧
    ({ onlyTechSkillsPayload [] with
        experience_years := some (JValue.jstr ("abc")) } : EnrichPayload).experience_years =
      some (JValue.jstr ("abc")) ∧
    pyInt (JValue.jstr ("abc")) = none ∧
    (merge_cv exampleCv (some (onlyTechSkillsPayload ["Docker"]))).skills_and_interests.technical_skills.toFinset =
      exampleCv.skills_and_interests.technical_skills.toFinset ∪
        ((((["Docker"] : List String).map trimStr).filter
            (fun s => s ≠ "")).map lowerStr).toFinset ∧
    (merge_cv exampleCv
        (some ({ onlyTechSkillsPayload [] with
          experience_years := some (JValue.jstr ("abc")) }))).metadata.experience_years =
      exampleCv.metadata.experience_years := by
  have h := claim_C7_merge_only_skills exampleCv ["Docker"] (by simp)
    ({ onlyTechSkillsPayload [] with experience_years := some (JValue.jstr ("abc")) })
    (JValue.jstr ("abc")) rfl (by decide)
  exact ⟨by simp, rfl, by decide, h.1, h.2.2.2.2.2.2⟩

theorem occursAt_le_length {n h : List Char} {i : ℕ}
    (ho : occursAt n h i = true) : i ≤ h.length := by
  unfold occursAt at ho
  simp only [Bool.and_eq_true, decide_eq_true_eq] at ho
  omega

theorem boundedSearch_iff (n h : List Char) :
    boundedSearch n h = true ↔ BoundedOccurs n h := by
  unfold boundedSearch BoundedOccurs
  rw [List.any_eq_true]
  constructor
  · rintro ⟨i, _, hb⟩
    exact ⟨i, hb⟩
  · rintro ⟨i, hb⟩
    refine ⟨i, List.mem_range.mpr ?_, hb⟩
    unfold boundedAt at hb
    simp only [Bool.and_eq_true] at hb
    have := occursAt_le_length hb.1.1
    omega

theorem substrSearch_iff (n h : List Char) :
    substrSearch n h = true ↔ SubstrOccurs n h := by
  unfold substrSearch SubstrOccurs
  rw [List.any_eq_true]
  constructor
  · rintro ⟨i, _, hb⟩
    exact ⟨i, hb⟩
  · rintro ⟨i, hb⟩
    exact ⟨i, List.mem_range.mpr (by have := occursAt_le_length hb; omega), hb⟩

theorem not_boundedOccurs_of_search {n h : List Char}
    (hb : boundedSearch n h = false) : ¬ BoundedOccurs n h := by
  intro hex
  rw [← boundedSearch_iff] at hex
  rw [hb] at hex
  exact Bool.false_ne_true hex

/-- C4 counterexample: the education vocabulary is not word-boundary-safe.
`detect_education_level` reports "master" for the text "masterpiece" even
though no alias of "master" (master, msc, engineer, ingénieur, ingenieur)
occurs in it bounded by non-word characters — "master" appears only as a
prefix of the longer word. -/
theorem claim_C4_counterexample :
    detect_education_level ("masterpiece") = "master" ∧
    ¬ BoundedOccurs (lowerStr ("master")).data (lowerStr ("masterpiece")).data ∧
    ¬ BoundedOccurs (lowerStr ("msc")).data (lowerStr ("masterpiece")).data ∧
    ¬ BoundedOccurs (lowerStr ("engineer")).data (lowerStr ("masterpiece")).data ∧
    ¬ BoundedOccurs (lowerStr ("ingénieur")).data (lowerStr ("masterpiece")).data ∧
    ¬ BoundedOccurs (lowerStr ("ingenieur")).data (lowerStr ("masterpiece")).data :=
  ⟨by decide,
    not_boundedOccurs_of_search (by decide),
    not_boundedOccurs_of_search (by decide),
    not_boundedOccurs_of_search (by decide),
    not_boundedOccurs_of_search (by decide),
    not_boundedOccurs_of_search (by decide)⟩

/-- C4 amended: only the skills vocabulary is word-boundary-safe — a skill
is detected iff one of its aliases occurs in the lower-cased text bounded
by non-word characters on both sides.  The spoken-language and
education-level vocabularies use plain substring containment instead: a
language is detected iff one of its aliases occurs anywhere in the
lower-cased text (even inside a longer word), and an education level is
reported exactly when some level's alias occurs as a plain substring (the
reported level being one whose alias occurs). -/
theorem claim_C4_boundary_safety (text : String) :
    (∀ skill : String,
      skill ∈ detect_skills text ↔
        ∃ aliases, (skill, aliases) ∈ SKILL_CATALOG ∧
          ∃ a ∈ aliases, BoundedOccurs (lowerStr a).data (lowerStr text).data) ∧
    (∀ name aliases, (name, aliases) ∈ LANGUAGE_CATALOG →
      (({ name := titleCase name, proficiency := none } : LangEntry) ∈
          detect_languages text ↔
        ∃ a ∈ aliases, SubstrOccurs a.data (lowerStr text).data)) ∧
    (detect_education_level text ≠ "" →
      ∃ aliases, (detect_education_level text, aliases) ∈ EDUCATION_KEYWORDS ∧
        ∃ a ∈ aliases, SubstrOccurs a.data (lowerStr text).data) ∧
    (∀ level aliases, (level, aliases) ∈ EDUCATION_KEYWORDS →
      (∃ a ∈ aliases, SubstrOccurs a.data (lowerStr text).data) →
      detect_education_level text ≠ "") := by
  refine ⟨?_, ?_, ?_, ?_⟩
  · intro skill
    unfold detect_skills
    rw [mem_pySortedSet]
    simp only [List.mem_map, List.mem_filter, List.any_eq_true,
      boundedSearch_iff]
    constructor
    · rintro ⟨p, ⟨hmem, a, ha, hocc⟩, rfl⟩
      exact ⟨p.2, hmem, a, ha, hocc⟩
    · rintro ⟨aliases, hmem, a, ha, hocc⟩
      exact ⟨(skill, aliases), ⟨hmem, a, ha, hocc⟩, rfl⟩
  · intro name aliases hmem
    have hinj : ∀ p ∈ LANGUAGE_CATALOG, ∀ q ∈ LANGUAGE_CATALOG,
        titleCase p.1 = titleCase q.1 → p = q := by decide
    unfold detect_languages
    rw [List.mem_filterMap]
    constructor
    · rintro ⟨p, hp, hsome⟩
      by_cases hcond : p.2.any (fun a => substrSearch a.data (lowerStr text).data)
      · rw [if_pos hcond] at hsome
        have hname : titleCase p.1 = titleCase name := by
          have := congrArg LangEntry.name (Option.some.inj hsome)
          exact this
        have hpq := hinj p hp (name, aliases) hmem hname
        rw [hpq] at hcond
        rcases List.any_eq_true.mp hcond with ⟨a, ha, hocc⟩
        exact ⟨a, ha, (substrSearch_iff _ _).mp hocc⟩
      · rw [if_neg hcond] at hsome
        exact absurd hsome (Option.noConfusion)
    · rintro ⟨a, ha, hocc⟩
      refine ⟨(name, aliases), hmem, ?_⟩
      rw [if_pos ?_]
      exact List.any_eq_true.mpr ⟨a, ha, (substrSearch_iff _ _).mpr hocc⟩
  · intro hne
    unfold detect_education_level at hne ⊢
    cases hfind : EDUCATION_KEYWORDS.find?
        (fun p => p.2.any (fun a => substrSearch a.data (lowerStr text).data)) with
    | none => rw [hfind] at hne; exact absurd rfl hne
    | some p =>
      have hp : p ∈ EDUCATION_KEYWORDS := List.mem_of_find?_eq_some hfind
      have hpred := List.find?_some hfind
      rcases List.any_eq_true.mp hpred with ⟨a, ha, hocc⟩
      exact ⟨p.2, hp, a, ha, (substrSearch_iff _ _).mp hocc⟩
  · intro level aliases hmem hocc
    have hkeys : ∀ p ∈ EDUCATION_KEYWORDS, p.1 ≠ "" := by decide
    unfold detect_education_level
    cases hfind : EDUCATION_KEYWORDS.find?
        (fun p => p.2.any (fun a => substrSearch a.data (lowerStr text).data)) with
    | none =>
      exfalso
      rcases hocc with ⟨a, ha, hsub⟩
      have : (level, aliases).2.any
          (fun a => substrSearch a.data (lowerStr text).data) = true :=
        List.any_eq_true.mpr ⟨a, ha, (substrSearch_iff _ _).mpr hsub⟩
      have := List.find?_eq_none.mp hfind (level, aliases) hmem
      exact absurd ‹_› this
    | some p => exact hkeys p (List.mem_of_find?_eq_some hfind)

/-- Witness for C4 amended: "germanium" contains "german" only inside a
longer word, yet the language German is detected (substring containment);
applied through the amended characterisation. -/
theorem claim_C4_witness :
    ({ name := titleCase ("german"), proficiency := none } : LangEntry) ∈
      detect_languages ("germanium") :=
  ((claim_C4_boundary_safety ("germanium")).2.1 ("german")
      (["german", "allemand"]) (by decide)).mpr
    ⟨("german"), by decide, ⟨0, by decide⟩⟩
theorem foldl_min_mem : ∀ (xs : List ℕ) (x : ℕ),
    xs.foldl (fun a b => min a b) x = x ∨ xs.foldl (fun a b => min a b) x ∈ xs := by
  intro xs
  induction xs with
  | nil => intro x; exact Or.inl rfl
  | cons y ys ih =>
    intro x
    have hfold : (y :: ys).foldl (fun a b => min a b) x = ys.foldl (fun a b => min a b) (min x y) :=
      rfl
    rcases ih (min x y) with h | h
    · rcases Nat.le_total x y with hxy | hyx
      · exact Or.inl (by rw [hfold, h]; omega)
      · refine Or.inr ?_
        have hm : min x y = y := by omega
        rw [hfold, h, hm]
        exact List.mem_cons_self y ys
    · exact Or.inr (List.mem_cons_of_mem y (by rw [hfold]; exact h))

theorem foldl_min_le : ∀ (xs : List ℕ) (x : ℕ),
    xs.foldl (fun a b => min a b) x ≤ x ∧ ∀ z ∈ xs, xs.foldl (fun a b => min a b) x ≤ z := by
  intro xs
  induction xs with
  | nil => intro x; exact ⟨le_refl x, by intro z hz; cases hz⟩
  | cons y ys ih =>
    intro x
    obtain ⟨h1, h2⟩ := ih (min x y)
    have hfold : (y :: ys).foldl (fun a b => min a b) x = ys.foldl (fun a b => min a b) (min x y) :=
      rfl
    refine ⟨?_, ?_⟩
    · rw [hfold]; exact le_trans h1 (min_le_left x y)
    · intro z hz
      rcases List.mem_cons.mp hz with rfl | hz
      · rw [hfold]; exact le_trans h1 (min_le_right x z)
      · rw [hfold]; exact h2 z hz

theorem listMin_mem {l : List ℕ} (h : l ≠ []) : listMin l ∈ l := by
  match l with
  | [] => exact absurd rfl h
  | x :: xs =>
    show xs.foldl (fun a b => min a b) x ∈ x :: xs
    rcases foldl_min_mem xs x with heq | hmem
    · rw [heq]; exact List.mem_cons_self x xs
    · exact List.mem_cons_of_mem x hmem

theorem listMin_le {l : List ℕ} (z : ℕ) (hz : z ∈ l) : listMin l ≤ z := by
  match l with
  | [] => cases hz
  | x :: xs =>
    show xs.foldl (fun a b => min a b) x ≤ z
    rcases List.mem_cons.mp hz with rfl | hz
    · exact (foldl_min_le xs z).1
    · exact (foldl_min_le xs x).2 z hz

theorem listMin_congr {l1 l2 : List ℕ} (h1 : l1 ≠ []) (h2 : l2 ≠ [])
    (hm : ∀ a, a ∈ l1 ↔ a ∈ l2) : listMin l1 = listMin l2 :=
  le_antisymm
    (listMin_le _ ((hm (listMin l2)).mpr (listMin_mem h2)))
    (listMin_le _ ((hm (listMin l1)).mp (listMin_mem h1)))

theorem length_filter_congr {α : Type} [DecidableEq α] {l1 l2 : List α}
    (p : α → Bool) (h1 : l1.Nodup) (h2 : l2.Nodup)
    (hm : ∀ a, a ∈ l1 ↔ a ∈ l2) :
    (l1.filter p).length = (l2.filter p).length := by
  rw [← List.toFinset_card_of_nodup (h1.filter p),
    ← List.toFinset_card_of_nodup (h2.filter p)]
  congr 1
  ext a
  simp only [List.mem_toFinset, List.mem_filter, hm a]

/-- Python `clamp(x, lo, hi)` on naturals, as the claim words it. -/
def clampNat (x lo hi : ℕ) : ℕ := max lo (min x hi)

/-- The distinct valid years of the claim's wording: all word-bounded
`19xx`/`20xx` tokens, with duplicates collapsed, restricted to
`[1980, current_year]`. -/
def claimDistinctValidYears (currentYear : ℕ) (text : List Char) : List ℕ :=
  ((List.range text.length).filterMap (fun i => yearAt text i)).dedup.filter
    (fun y => decide (1980 ≤ y) && decide (y ≤ currentYear))

/-- The claim's statement of the experience heuristic: with ≥ 2 distinct
valid years clamp the span from the earliest year to [0, 25]; with exactly
one, clamp to [1, 25]; with none, use an explicit "N years" phrase if one
exists, else 0. -/
def claimExperienceEstimate (currentYear : ℕ) (text : List Char) : ℕ :=
  let valid := claimDistinctValidYears currentYear text
  if 2 ≤ valid.length then
    clampNat (currentYear - listMin valid) 0 25
  else if valid.length = 1 then
    clampNat (currentYear - listMin valid) 1 25
  else (firstPhrase text).getD 0

theorem estimate_branches (cy : ℕ) (lc ld : List ℕ) (fp : Option ℕ)
    (hlen : lc.length = ld.length) (hmem : ∀ a, a ∈ lc ↔ a ∈ ld) :
    (if 2 ≤ lc.length then max 0 (min (cy - listMin lc) 25)
      else if lc.length = 1 then max 1 (min (cy - lc.headD 0) 25)
      else match fp with | some n => n | none => 0) =
    (if 2 ≤ ld.length then clampNat (cy - listMin ld) 0 25
      else if ld.length = 1 then clampNat (cy - listMin ld) 1 25
      else fp.getD 0) := by
  rw [hlen]
  by_cases h2 : 2 ≤ ld.length
  · rw [if_pos h2, if_pos h2]
    have hne2 : ld ≠ [] := by
      intro hnil; rw [hnil] at h2; simp at h2
    have hne1 : lc ≠ [] := by
      intro hnil; rw [hnil] at hlen; simp at hlen; omega
    rw [listMin_congr hne1 hne2 hmem]
    rfl
  · rw [if_neg h2, if_neg h2]
    by_cases h1 : ld.length = 1
    · rw [if_pos h1, if_pos h1]
      have hlen1 : lc.length = 1 := by rw [hlen, h1]
      rcases List.length_eq_one.mp hlen1 with ⟨z, hz⟩
      subst hz
      have hne2 : ld ≠ [] := by
        intro hnil; rw [hnil] at h1; simp at h1
      have hminld : listMin ld = z := by
        rw [← @listMin_congr [z] ld (by simp) hne2 hmem]
        rfl
      rw [hminld]
      rfl
    · rw [if_neg h1, if_neg h1]
      cases fp with
      | none => rfl
      | some n => rfl

/-- C5: the candidate experience-years estimator agrees with the claim's
clamp-based description for every text and current year. -/
theorem claim_C5_experience_heuristic (currentYear : ℕ) (text : List Char) :
    estimate_cv_experience_years currentYear text =
      claimExperienceEstimate currentYear text := by
  have hmem : ∀ a,
      a ∈ (pySortedSet Nat.ble (yearTokens text)).filter
        (fun y => decide (1980 ≤ y) && decide (y ≤ currentYear)) ↔
      a ∈ claimDistinctValidYears currentYear text := by
    intro a
    unfold claimDistinctValidYears yearTokens
    simp only [List.mem_filter, mem_pySortedSet, List.mem_dedup]
  have hlen : ((pySortedSet Nat.ble (yearTokens text)).filter
      (fun y => decide (1980 ≤ y) && decide (y ≤ currentYear))).length =
      (claimDistinctValidYears currentYear text).length := by
    unfold claimDistinctValidYears yearTokens
    exact length_filter_congr _ (nodup_pySortedSet Nat.ble _)
      (List.nodup_dedup _)
      (fun a => by simp only [mem_pySortedSet, List.mem_dedup])
  exact estimate_branches currentYear _ _ (firstPhrase text) hlen hmem
